import Mathlib

/-!
# Verified shallow embedding of the waterline-mysql criteria compiler

This file embeds the query-criteria compiler of `MySQLAdapter.js` (the
`sql.*` private helpers: `prepareCriterion`, `prepareValue`,
`prepareAttribute`, `where`, `predicate`, `serializeOptions`, `criteria`,
and `build`) together with the escaping routines it delegates to
(`mysql.escape` / `mysql.escapeId` from the bundled `mysql` driver and
`_.str.rtrim` from `underscore.string`), and proves properties of the
translation.

JavaScript values flowing through the compiler are modelled by the
inductive type `Value` (null, booleans, integral numbers, strings,
objects as ordered key/value lists, arrays).  Dates, functions and
regular expressions never occur in the statements proved here and are
omitted from the model.  JavaScript exceptions (`throw new Error(...)`)
are modelled with `Except String`.
-/

namespace WMySQL

/-- A JavaScript value as seen by the criteria compiler: `null`, booleans,
(integral) numbers, strings, plain objects (ordered field lists, as JS
objects preserve insertion order) and arrays. -/
inductive Value where
  | vNull : Value
  | vBool : Bool → Value
  | vInt : Int → Value
  | vStr : String → Value
  | vObj : List (String × Value) → Value
  | vArr : List Value → Value

/-- JavaScript truthiness of a `Value`: `null`, `false`, `0` and `""` are
falsy; every object and array is truthy. -/
def truthy : Value → Bool
  | .vNull => false
  | .vBool b => b
  | .vInt n => n != 0
  | .vStr s => s ≠ ""
  | .vObj _ => true
  | .vArr _ => true

/-- `_.isObject` of underscore: arrays and plain objects are objects. -/
def isObjectJS : Value → Bool
  | .vObj _ => true
  | .vArr _ => true
  | _ => false

/-- `_.isArray`. -/
def isArrayV : Value → Bool
  | .vArr _ => true
  | _ => false

/-- The strict-equality test `value === null`. -/
def isNullV : Value → Bool
  | .vNull => true
  | _ => false

/-- A scalar value: `null`, boolean, number or string. -/
def isScalar : Value → Bool
  | .vNull => true
  | .vBool _ => true
  | .vInt _ => true
  | .vStr _ => true
  | _ => false

/-- Property lookup `obj.k` on an object value, `undefined` mapped to
`none`.  JS object keys are unique, so first match is the match. -/
def getProp (fields : List (String × Value)) (k : String) : Option Value :=
  (fields.find? (fun p => p.1 = k)).map (·.2)

/-- Truthiness of `c[k]` as tested by `validSubAttrCriteria` (`undefined`
is falsy). -/
def propTruthy (c : Value) (k : String) : Bool :=
  match c with
  | .vObj fields =>
    match getProp fields k with
    | some v => truthy v
    | none => false
  | _ => false

/-- `validSubAttrCriteria` from `MySQLAdapter.js` (lines 548-555): an
object is a sub-attribute criteria when it is an object (`_.isObject`)
and at least one of the recognized comparator properties is *truthy*
(the source tests the operand values with `||`, not key presence). -/
def validSubAttrCriteria (c : Value) : Bool :=
  isObjectJS c && (
    propTruthy c "not" || propTruthy c "greaterThan" || propTruthy c "lessThan" ||
    propTruthy c "greaterThanOrEqual" || propTruthy c "lessThanOrEqual" ||
    propTruthy c "<" || propTruthy c "<=" || propTruthy c "!" ||
    propTruthy c ">" || propTruthy c ">=" ||
    propTruthy c "startsWith" || propTruthy c "endsWith" || propTruthy c "contains")

/-! ## The escaping layer (`mysql.escape`, `mysql.escapeId`) -/

/-- Per-character escaping of `SqlString.escape` in the `mysql` driver:
NUL, newline, carriage return, backspace, tab, ctrl-Z, backslash and
both quote characters are backslash-escaped. -/
def escapeChar (c : Char) : String :=
  if c = '\x00' then "\\0"
  else if c = '\n' then "\\n"
  else if c = '\r' then "\\r"
  else if c = '\x08' then "\\b"
  else if c = '\t' then "\\t"
  else if c = '\x1a' then "\\Z"
  else if c = '\\' then "\\\\"
  else if c = '\'' then "\\'"
  else if c = '\"' then "\\\""
  else String.singleton c

/-- Body of an escaped string literal (the quotes are added by the
caller). -/
def escapeStringBody (s : String) : String :=
  String.join (s.data.map escapeChar)

/-- `String.prototype.toLowerCase` (ASCII range, which covers every key
the compiler compares case-insensitively). -/
def toLowerJS (s : String) : String :=
  ⟨s.data.map Char.toLower⟩

/-- One identifier character under `mysql.escapeId`'s two successive
global replaces (`` ` `` to ``` `` ``` first, then `.` to `` `.` ``;
the two patterns do not interact, so a single pass is equivalent). -/
def escapeIdChar (c : Char) : String :=
  if c = '`' then "``"
  else if c = '.' then "`.`"
  else String.singleton c

/-- `mysql.escapeId`: wrap an identifier in backticks, doubling interior
backticks and splitting on dots. -/
def escapeId (s : String) : String :=
  "`" ++ String.join (s.data.map escapeIdChar) ++ "`"

mutual

/-- `mysql.escape` (`SqlString.escape`).  The `stringify` flag is the
driver's `stringifyObjects` argument: nested objects reached from
`objectToValues`/`arrayToList` are stringified (`val.toString()` of a
plain object is `"[object Object]"`) instead of expanded. -/
def escapeVal : Value → Bool → String
  | .vNull, _ => "NULL"
  | .vBool b, _ => if b then "true" else "false"
  | .vInt n, _ => toString n
  | .vStr s, _ => "'" ++ escapeStringBody s ++ "'"
  | .vArr es, _ => arrayToList es
  | .vObj fields, stringify =>
    if stringify then "'" ++ escapeStringBody "[object Object]" ++ "'"
    else objectToValues fields

/-- One element of `SqlString.arrayToList`: nested arrays are
parenthesized, everything else escaped with `stringifyObjects = true`. -/
def arrayElem : Value → String
  | .vArr es => "(" ++ arrayToList es ++ ")"
  | v => escapeVal v true

/-- `SqlString.arrayToList`: elements joined with `", "`. -/
def arrayToList : List Value → String
  | [] => ""
  | [v] => arrayElem v
  | v :: rest => arrayElem v ++ ", " ++ arrayToList rest

/-- `SqlString.objectToValues`: `` `key` = value`` pairs joined with
`", "`, values escaped with `stringifyObjects = true`. -/
def objectToValues : List (String × Value) → String
  | [] => ""
  | [(k, v)] => escapeId k ++ " = " ++ escapeVal v true
  | (k, v) :: rest => escapeId k ++ " = " ++ escapeVal v true ++ ", " ++ objectToValues rest

end

/-! ## The join/build utility -/

/-- Membership of a character in the character set of a separator string
(the `[chars]+$` character class used by `_.str.rtrim`). -/
def inCharSet (chars : String) (c : Char) : Bool :=
  decide (c ∈ chars.data)

/-- `_.str.rtrim(s, chars)` from `underscore.string`: removes the (longest)
trailing run of characters drawn from the character *set* of `chars`; it
is not a single literal-suffix strip. -/
def rtrimSet (s : String) (chars : String) : String :=
  ⟨(s.data.reverse.dropWhile (inCharSet chars)).reverse⟩

/-- The accumulation loop of `sql.build`: each translated fragment is
followed by the separator (`$sql += fn(...) + separator`). -/
def sepConcat (frags : List String) (sep : String) : String :=
  match frags with
  | [] => ""
  | f :: rest => f ++ sep ++ sepConcat rest sep

/-- `sql.build` applied to already-translated fragments: append the
separator after every fragment, then right-trim the separator's
character set. -/
def buildJoin (frags : List String) (sep : String) : String :=
  rtrimSet (sepConcat frags sep) sep

/-- Ordinary separator join (what `build` achieves when the last fragment
does not end in a separator character). -/
def joinWith (sep : String) : List String → String
  | [] => ""
  | [f] => f
  | f :: rest => f ++ sep ++ joinWith sep rest

instance : DecidableEq (Except String String) := fun a b =>
  match a, b with
  | .ok x, .ok y =>
    if h : x = y then isTrue (by rw [h]) else isFalse (by simp [h])
  | .error x, .error y =>
    if h : x = y then isTrue (by rw [h]) else isFalse (by simp [h])
  | .ok _, .error _ => isFalse (by simp)
  | .error _, .ok _ => isFalse (by simp)

/-! ## Facts about the join/build utility -/

/-- The last character of `f` exists and lies outside the character set
of `chars` — the condition under which `rtrim` removes exactly the
trailing separator appended by `build`. -/
def endsNotIn (chars : String) (f : String) : Bool :=
  match f.data.getLast? with
  | none => false
  | some c => !(inCharSet chars c)

theorem endsNotIn_data_ne {chars f : String} (h : endsNotIn chars f = true) :
    f.data ≠ [] := by
  intro hnil
  simp [endsNotIn, hnil] at h

theorem endsNotIn_ne_empty {chars f : String} (h : endsNotIn chars f = true) :
    f ≠ "" := by
  intro hf
  exact endsNotIn_data_ne h (by rw [hf])

theorem dropWhile_reverse_of_endsNotIn {chars f : String}
    (h : endsNotIn chars f = true) :
    f.data.reverse.dropWhile (inCharSet chars) = f.data.reverse := by
  rcases hl : f.data.getLast? with _ | c
  · simp [endsNotIn, hl] at h
  · have hc : inCharSet chars c = false := by
      simpa [endsNotIn, hl] using h
    have hhead : f.data.reverse.head? = some c := by
      rw [List.head?_reverse, hl]
    rcases hrev : f.data.reverse with _ | ⟨a, t⟩
    · simp [hrev] at hhead
    · have : a = c := by
        rw [hrev] at hhead
        simpa using hhead
      subst this
      simp [List.dropWhile_cons, hc]

theorem rtrimSet_append_sep (s sep : String) (h : endsNotIn sep s = true) :
    rtrimSet (s ++ sep) sep = s := by
  apply String.ext
  simp only [rtrimSet, String.data_append, List.reverse_append]
  rw [List.dropWhile_append_of_pos (by
    intro c hc
    simp only [inCharSet, decide_eq_true_eq]
    exact List.mem_reverse.mp hc)]
  rw [dropWhile_reverse_of_endsNotIn h, List.reverse_reverse]

theorem rtrimSet_append_left (a b sep : String)
    (hb : b.data.reverse.dropWhile (inCharSet sep) ≠ []) :
    rtrimSet (a ++ b) sep = a ++ rtrimSet b sep := by
  apply String.ext
  simp only [rtrimSet, String.data_append, List.reverse_append]
  rw [List.dropWhile_append, if_neg (by simpa using hb)]
  simp

theorem rtrimSet_data_of_endsNotIn {b sep : String}
    (h : (rtrimSet b sep).data ≠ []) :
    b.data.reverse.dropWhile (inCharSet sep) ≠ [] := by
  intro hnil
  apply h
  simp [rtrimSet, hnil]

theorem joinWith_cons_cons (sep f g : String) (t : List String) :
    joinWith sep (f :: g :: t) = f ++ sep ++ joinWith sep (g :: t) := rfl

theorem joinWith_ne_empty {sep : String} {frags : List String} {f : String}
    (hmem : frags ≠ []) (hhead : ∀ g ∈ frags, g ≠ "")
    (hf : f ∈ frags) : joinWith sep frags ≠ "" := by
  cases frags with
  | nil => exact absurd rfl hmem
  | cons g t =>
    cases t with
    | nil =>
      simpa [joinWith] using hhead g (by simp)
    | cons g2 t2 =>
      rw [joinWith_cons_cons]
      intro hcontra
      have : (g ++ sep ++ joinWith sep (g2 :: t2)).data = [] := by
        rw [hcontra]
      simp only [String.data_append, List.append_eq_nil] at this
      exact hhead g (by simp) (String.ext this.1.1)

theorem buildJoin_eq_joinWith (sep : String) (frags : List String)
    (h : ∀ f ∈ frags, endsNotIn sep f = true) :
    buildJoin frags sep = joinWith sep frags := by
  induction frags with
  | nil => rfl
  | cons f t ih =>
    cases t with
    | nil =>
      show rtrimSet (f ++ sep ++ "") sep = joinWith sep [f]
      rw [String.append_empty]
      rw [rtrimSet_append_sep f sep (h f (by simp))]
      rfl
    | cons g t2 =>
      have hrest : buildJoin (g :: t2) sep = joinWith sep (g :: t2) :=
        ih (fun x hx => h x (by simp [hx]))
      have hne : joinWith sep (g :: t2) ≠ "" := by
        apply joinWith_ne_empty (f := g) (by simp)
        · intro x hx
          exact endsNotIn_ne_empty (h x (by simp [hx]))
        · simp
      show rtrimSet (f ++ sep ++ sepConcat (g :: t2) sep) sep = _
      rw [rtrimSet_append_left (f ++ sep) _ _ (by
        apply rtrimSet_data_of_endsNotIn
        intro hdata
        apply hne
        rw [← hrest]
        exact String.ext (by simpa [buildJoin] using hdata))]
      rw [show rtrimSet (sepConcat (g :: t2) sep) sep = buildJoin (g :: t2) sep from rfl]
      rw [hrest, joinWith_cons_cons, String.append_assoc]

/-! ## Last characters of escaped scalars -/

/-- Every character that an escaped scalar can end in: a decimal digit
(numbers), a closing single quote (strings), `e` (`true`/`false`),
`L` (`NULL`, `IS NULL`, `IS NOT NULL`) or `%` (LIKE wildcards). -/
def scalarEndChars : List Char :=
  "0123456789".data ++ ['\'', 'e', 'L', '%']

/-- A separator none of whose characters can end an escaped scalar, so
that `build`'s right-trim removes exactly the trailing separator. -/
def sepSafe (sep : String) : Bool :=
  scalarEndChars.all (fun c => !(inCharSet sep c))

theorem inCharSet_eq_false_of_sepSafe {sep : String} {c : Char}
    (hsep : sepSafe sep = true) (hc : c ∈ scalarEndChars) :
    inCharSet sep c = false := by
  have := List.all_eq_true.mp hsep c hc
  simpa using this

theorem endsNotIn_of_getLast {sep f : String} {c : Char}
    (hsep : sepSafe sep = true) (hl : f.data.getLast? = some c)
    (hc : c ∈ scalarEndChars) : endsNotIn sep f = true := by
  simp [endsNotIn, hl, inCharSet_eq_false_of_sepSafe hsep hc]

theorem endsNotIn_append {chars x y : String}
    (hy : endsNotIn chars y = true) : endsNotIn chars (x ++ y) = true := by
  rcases hl : y.data.getLast? with _ | c
  · simp [endsNotIn, hl] at hy
  · have : (x ++ y).data.getLast? = some c := by
      rw [String.data_append, List.getLast?_append, hl]
      rfl
    simp only [endsNotIn, this]
    simpa [endsNotIn, hl] using hy

theorem toDigitsCore_mem (f : Nat) :
    ∀ (n : Nat) (ds : List Char) (c : Char),
      c ∈ Nat.toDigitsCore 10 f n ds → c ∈ ds ∨ c ∈ "0123456789".data := by
  induction f with
  | zero => intro n ds c h; exact Or.inl h
  | succ f ih =>
    intro n ds c h
    have hd : Nat.digitChar (n % 10) ∈ "0123456789".data := by
      have h10 : n % 10 < 10 := Nat.mod_lt _ (by omega)
      interval_cases h : (n % 10) <;> simp [Nat.digitChar]
    simp only [Nat.toDigitsCore] at h
    by_cases hz : n / 10 = 0
    · rw [if_pos hz] at h
      rcases List.mem_cons.mp h with rfl | hmem
      · exact Or.inr hd
      · exact Or.inl hmem
    · rw [if_neg hz] at h
      rcases ih (n / 10) (Nat.digitChar (n % 10) :: ds) c h with hmem | hdig
      · rcases List.mem_cons.mp hmem with rfl | hmem2
        · exact Or.inr hd
        · exact Or.inl hmem2
      · exact Or.inr hdig

theorem toDigitsCore_length (f : Nat) :
    ∀ (n : Nat) (ds : List Char),
      ds.length ≤ (Nat.toDigitsCore 10 f n ds).length := by
  induction f with
  | zero => intro n ds; simp [Nat.toDigitsCore]
  | succ f ih =>
    intro n ds
    simp only [Nat.toDigitsCore]
    by_cases hz : n / 10 = 0
    · rw [if_pos hz]; simp
    · rw [if_neg hz]
      calc ds.length ≤ (Nat.digitChar (n % 10) :: ds).length := by simp
        _ ≤ _ := ih (n / 10) (Nat.digitChar (n % 10) :: ds)

theorem toDigits_ne_nil (n : Nat) : Nat.toDigits 10 n ≠ [] := by
  show Nat.toDigitsCore 10 (n + 1) n [] ≠ []
  simp only [Nat.toDigitsCore]
  by_cases hz : n / 10 = 0
  · rw [if_pos hz]; simp
  · rw [if_neg hz]
    intro hnil
    have := toDigitsCore_length n (n / 10) [Nat.digitChar (n % 10)]
    rw [hnil] at this
    simp at this

theorem natRepr_last_digit (m : Nat) :
    ∃ c, (Nat.repr m).data.getLast? = some c ∧ c ∈ "0123456789".data := by
  have hne : (Nat.repr m).data ≠ [] := toDigits_ne_nil m
  rcases hl : (Nat.repr m).data.getLast? with _ | c
  · exact absurd (List.getLast?_eq_none_iff.mp hl) hne
  · refine ⟨c, rfl, ?_⟩
    have hmem : c ∈ (Nat.repr m).data := List.mem_of_mem_getLast? (by rw [hl]; rfl)
    rcases toDigitsCore_mem (m + 1) m [] c hmem with h | h
    · cases h
    · exact h

theorem intRepr_last_digit (n : Int) :
    ∃ c, (toString n).data.getLast? = some c ∧ c ∈ "0123456789".data := by
  cases n with
  | ofNat m => exact natRepr_last_digit m
  | negSucc m =>
    rcases natRepr_last_digit (m + 1) with ⟨c, hl, hc⟩
    refine ⟨c, ?_, hc⟩
    show ("-" ++ Nat.repr (m + 1)).data.getLast? = some c
    rw [String.data_append, List.getLast?_append, hl]
    rfl

theorem escapeVal_last {v : Value} (h : isScalar v = true) :
    ∃ c, (escapeVal v false).data.getLast? = some c ∧ c ∈ scalarEndChars := by
  cases v with
  | vNull => exact ⟨'L', by simp [escapeVal], by simp [scalarEndChars]⟩
  | vBool b =>
    cases b
    · exact ⟨'e', by simp [escapeVal], by simp [scalarEndChars]⟩
    · exact ⟨'e', by simp [escapeVal], by simp [scalarEndChars]⟩
  | vInt n =>
    rcases intRepr_last_digit n with ⟨c, hl, hc⟩
    refine ⟨c, ?_, by simp only [scalarEndChars, List.mem_append]; exact Or.inl hc⟩
    simpa [escapeVal] using hl
  | vStr s =>
    refine ⟨'\'', ?_, by simp [scalarEndChars]⟩
    have hev : escapeVal (Value.vStr s) false = ("'" ++ escapeStringBody s) ++ "'" := by
      simp [escapeVal]
    rw [hev, String.data_append, List.getLast?_append]
    rfl
  | vObj fields => simp [isScalar] at h
  | vArr es => simp [isScalar] at h

theorem endsNotIn_escapeVal {sep : String} {v : Value}
    (hsep : sepSafe sep = true) (h : isScalar v = true) :
    endsNotIn sep (escapeVal v false) = true := by
  rcases escapeVal_last h with ⟨c, hl, hc⟩
  exact endsNotIn_of_getLast hsep hl hc

/-! ## The criteria compiler -/

/-- `sql.prepareValue` (lines 331-345): dates and functions do not occur
in the model, so this is `mysql.escape`. -/
def prepareValue (value : Value) : String :=
  escapeVal value false

/-- `sql.prepareAttribute` (lines 347-349): `mysql.escapeId` of the
attribute name (the value argument is ignored by the source). -/
def prepareAttribute (attrName : String) : String :=
  escapeId attrName

/-- Array entries as `_.each` sees them: elements keyed by their numeric
index (stringified — a JS numeric index never strict-equals a comparator
string, which the stringification preserves for the keys that occur
here). -/
def jsEntriesArr (i : Nat) : List Value → List (String × Value)
  | [] => []
  | v :: rest => (toString i, v) :: jsEntriesArr (i + 1) rest

/-- The entries `_.each` iterates for a non-recursive `sql.build` call:
object fields in order; array elements with their index as key; nothing
for scalars. -/
def jsEntries : Value → List (String × Value)
  | .vObj fields => fields
  | .vArr es => jsEntriesArr 0 es
  | _ => []

/-- The global regex replace `/%%%/g → \\%` of the `like` branch
(left-to-right, non-overlapping). -/
def replaceTriplePercent : List Char → List Char
  | '%' :: '%' :: '%' :: rest => '\\' :: '%' :: replaceTriplePercent rest
  | c :: rest => c :: replaceTriplePercent rest
  | [] => []

/-- The anonymous LIKE criterion translator passed to `sql.build` inside
`sql.predicate`'s `like` branch (lines 386-401): renders
``attr LIKE value`` with the `%%%` sentinel replaced by an escaped `%`.
(Regular-expression patterns, which the source rejects with an error,
cannot occur in the `Value` model.) -/
def likeCriterion (value : Value) (attrName : String) : String :=
  prepareAttribute attrName ++ " LIKE " ++ ⟨replaceTriplePercent (prepareValue value).data⟩

/-- The `like` branch: `sql.build(collectionName, criterion, fn, ' AND ')`. -/
def likeBuild (criterion : Value) : String :=
  buildJoin ((jsEntries criterion).map (fun p => likeCriterion p.2 p.1)) " AND "

/-- `sql.values` (lines 279-281) applied to an IN-list: every element is
escaped by `prepareValue` (the key override plays no role since
`prepareValue` ignores the attribute), joined by `build` with `", "`. -/
def valuesList (criterion : Value) : String :=
  buildJoin ((jsEntries criterion).map (fun p => prepareValue p.2)) ", "

mutual

/-- `sql.prepareCriterion` (lines 288-329).  `parentKey = some pk`
models a truthy `parentKey` argument. -/
def prepareCriterion (value : Value) (key : String) (parentKey : Option String) :
    Except String String :=
  if validSubAttrCriteria value then
    whereV value (some key)
  else
    match parentKey with
    | some pk =>
      let attrStr := prepareAttribute pk
      let valueStr := prepareValue value
      if key = "<" ∨ key = "lessThan" then .ok (attrStr ++ "<" ++ valueStr)
      else if key = "<=" ∨ key = "lessThanOrEqual" then .ok (attrStr ++ "<=" ++ valueStr)
      else if key = ">" ∨ key = "greaterThan" then .ok (attrStr ++ ">" ++ valueStr)
      else if key = ">=" ∨ key = "greaterThanOrEqual" then .ok (attrStr ++ ">=" ++ valueStr)
      else if key = "!" ∨ key = "not" then
        .ok (if isNullV value then attrStr ++ "IS NOT NULL" else attrStr ++ "<>" ++ valueStr)
      else if key = "contains" then .ok (attrStr ++ " LIKE %" ++ valueStr ++ "%")
      else if key = "startsWith" then .ok (attrStr ++ " LIKE " ++ valueStr ++ "%")
      else if key = "endsWith" then .ok (attrStr ++ " LIKE %" ++ valueStr)
      else .error ("Unknown comparator: " ++ key)
    | none =>
      let attrStr := prepareAttribute key
      let valueStr := prepareValue value
      if isNullV value then .ok (attrStr ++ " IS NULL")
      else .ok (attrStr ++ "=" ++ valueStr)
termination_by (sizeOf value, 2)

/-- `sql.where` (lines 353-355): `build` over the node with
`sql.predicate` and separator `" AND "`. -/
def whereV (w : Value) (parentKey : Option String) : Except String String :=
  match w with
  | .vObj fields => do
    let frags ← predPairs fields parentKey
    .ok (buildJoin frags " AND ")
  | .vArr es => do
    let frags ← predIdx 0 es parentKey
    .ok (buildJoin frags " AND ")
  | _ => .ok (buildJoin [] " AND ")
termination_by (sizeOf w, 1)

/-- The `_.each` loop of `build` over an object's fields with
`sql.predicate` (errors abort the loop, as a JS exception would). -/
def predPairs (fields : List (String × Value)) (parentKey : Option String) :
    Except String (List String) :=
  match fields with
  | [] => .ok []
  | (k, v) :: rest => do
    let f ← predicate v k parentKey
    let fs ← predPairs rest parentKey
    .ok (f :: fs)
termination_by (sizeOf fields, 0)

/-- The `_.each` loop of `build` over an array with `sql.predicate`; the
numeric index is the key. -/
def predIdx (i : Nat) (es : List Value) (parentKey : Option String) :
    Except String (List String) :=
  match es with
  | [] => .ok []
  | v :: rest => do
    let f ← predicate v (toString i) parentKey
    let fs ← predIdx (i + 1) rest parentKey
    .ok (f :: fs)
termination_by (sizeOf es, 0)

/-- `sql.predicate` (lines 358-414), in source dispatch order: comparator
context first, then `or`, `and`, arrays (IN), `like`, `not`, and plain
criteria last. -/
def predicate (criterion : Value) (key : String) (parentKey : Option String) :
    Except String String :=
  match parentKey with
  | some pk => prepareCriterion criterion key (some pk)
  | none =>
    if toLowerJS key = "or" then do
      let frags ← whereFrags criterion
      .ok (" ( " ++ buildJoin frags " OR " ++ " ) ")
    else if toLowerJS key = "and" then do
      let frags ← whereFrags criterion
      .ok (" ( " ++ buildJoin frags " AND " ++ " ) ")
    else if isArrayV criterion then
      .ok (prepareAttribute key ++ " IN (" ++ valuesList criterion ++ ")")
    else if toLowerJS key = "like" then
      .ok (likeBuild criterion)
    else if toLowerJS key = "not" then
      .error "NOT not supported yet!"
    else
      prepareCriterion criterion key none
termination_by (sizeOf criterion, 3)

/-- The `_.each` loop of `build` over an `or`/`and` value with
`sql.where` (whose `key` argument is ignored and whose `parentKey` is
`undefined`). -/
def whereFrags (criterion : Value) : Except String (List String) :=
  match criterion with
  | .vObj fields => wherePairs fields
  | .vArr es => whereArr es
  | _ => .ok []
termination_by (sizeOf criterion, 2)

/-- `or`/`and` iteration over an object's field values. -/
def wherePairs (fields : List (String × Value)) : Except String (List String) :=
  match fields with
  | [] => .ok []
  | (_, v) :: rest => do
    let f ← whereV v none
    let fs ← wherePairs rest
    .ok (f :: fs)
termination_by (sizeOf fields, 0)

/-- `or`/`and` iteration over an array's elements. -/
def whereArr (es : List Value) : Except String (List String) :=
  match es with
  | [] => .ok []
  | v :: rest => do
    let f ← whereV v none
    let fs ← whereArr rest
    .ok (f :: fs)
termination_by (sizeOf es, 0)

end

/-! ## The options serializer and the UPDATE assignment builder -/

/-- A top-level criteria object (`options`): `where`, `sort`, `limit`,
`skip`.  An absent field is `none`; a present field carries the JS
value.  Sort directions are numbers, `limit`/`skip` non-negative
integers (the data model's domain). -/
structure Criteria where
  whereC : Option Value := none
  sort : Option (List (String × Int)) := none
  limit : Option Nat := none
  skip : Option Nat := none

/-- JS truthiness of an optional numeric option (`undefined` and `0` are
falsy). -/
def natOptTruthy : Option Nat → Bool
  | none => false
  | some n => n != 0

/-- `sql.serializeOptions` (lines 416-453), translated block by block:
`WHERE` when `options.where` is truthy (any object, even empty, is
truthy), `ORDER BY` when `options.sort` is truthy (ASC exactly for the
numeric direction 1), `LIMIT n` when `options.limit` is truthy else the
sentinel `LIMIT 18446744073709551610`, and `OFFSET n` when
`options.skip` is truthy. -/
def serializeOptions (options : Criteria) : Except String String := do
  let wherePart ←
    match options.whereC with
    | some w =>
      if truthy w then do
        let s ← whereV w none
        Except.ok ("WHERE " ++ s ++ " ")
      else Except.ok ""
    | none => Except.ok ""
  let sortPart :=
    match options.sort with
    | some l =>
      "ORDER BY " ++
        String.join (l.map (fun p =>
          prepareAttribute p.1 ++ " " ++ (if p.2 = 1 then "ASC " else "DESC ")))
    | none => ""
  let limitPart :=
    if natOptTruthy options.limit then
      "LIMIT " ++ toString (options.limit.getD 0) ++ " "
    else
      "LIMIT 18446744073709551610 "
  let skipPart :=
    if natOptTruthy options.skip then
      "OFFSET " ++ toString (options.skip.getD 0) ++ " "
    else ""
  .ok (wherePart ++ sortPart ++ limitPart ++ skipPart)

/-- The `_.each` loop of `build` over the `values` mapping of
`sql.criteria` with `sql.prepareCriterion` (no parent key). -/
def criterionFrags (pairs : List (String × Value)) : Except String (List String) :=
  match pairs with
  | [] => .ok []
  | (k, v) :: rest => do
    let f ← prepareCriterion v k none
    let fs ← criterionFrags rest
    .ok (f :: fs)

/-- `sql.criteria` (lines 284-286): `build` with `sql.prepareCriterion`
and the default `", "` separator.  `adapter.update` concatenates its
result after `SET` (line 220). -/
def criteria (pairs : List (String × Value)) : Except String String := do
  let frags ← criterionFrags pairs
  .ok (buildJoin frags ", ")

/-! ## Statement-level descriptions of single fragments -/

/-- The comparator keys recognized by `prepareCriterion`'s dispatch. -/
def comparatorKeys : List String :=
  ["<", "lessThan", "<=", "lessThanOrEqual", ">", "greaterThan",
   ">=", "greaterThanOrEqual", "!", "not", "contains", "startsWith", "endsWith"]

/-- What `prepareCriterion` renders for a plain attribute/value pair
(no parent key, value not a sub-attribute criteria): the `IS NULL` test
for `null`, an equality otherwise. -/
def plainCriterionFrag (key : String) (value : Value) : String :=
  if isNullV value then prepareAttribute key ++ " IS NULL"
  else prepareAttribute key ++ "=" ++ prepareValue value

/-- What `prepareCriterion` renders for one comparator pair `key: value`
under parent key `parentKey` (for a key outside `comparatorKeys` this
mirrors the thrown error message and is never produced as SQL). -/
def comparatorFrag (parentKey key : String) (value : Value) : String :=
  let attrStr := prepareAttribute parentKey
  let valueStr := prepareValue value
  if key = "<" ∨ key = "lessThan" then attrStr ++ "<" ++ valueStr
  else if key = "<=" ∨ key = "lessThanOrEqual" then attrStr ++ "<=" ++ valueStr
  else if key = ">" ∨ key = "greaterThan" then attrStr ++ ">" ++ valueStr
  else if key = ">=" ∨ key = "greaterThanOrEqual" then attrStr ++ ">=" ++ valueStr
  else if key = "!" ∨ key = "not" then
    (if isNullV value then attrStr ++ "IS NOT NULL" else attrStr ++ "<>" ++ valueStr)
  else if key = "contains" then attrStr ++ " LIKE %" ++ valueStr ++ "%"
  else if key = "startsWith" then attrStr ++ " LIKE " ++ valueStr ++ "%"
  else if key = "endsWith" then attrStr ++ " LIKE %" ++ valueStr
  else "Unknown comparator: " ++ key

/-! ## Generic translation lemmas -/

theorem validSubAttrCriteria_scalar {v : Value} (h : isScalar v = true) :
    validSubAttrCriteria v = false := by
  cases v <;> simp_all [isScalar, validSubAttrCriteria, isObjectJS]

theorem isArrayV_scalar {v : Value} (h : isScalar v = true) :
    isArrayV v = false := by
  cases v <;> simp_all [isScalar, isArrayV]

theorem prepareCriterion_plain (k : String) {v : Value} (h : isScalar v = true) :
    prepareCriterion v k none = .ok (plainCriterionFrag k v) := by
  simp only [prepareCriterion, validSubAttrCriteria_scalar h, Bool.false_eq_true,
    if_false, plainCriterionFrag]
  split <;> rfl

theorem endsNotIn_plainCriterionFrag {sep : String} (k : String) {v : Value}
    (hsep : sepSafe sep = true) (h : isScalar v = true) :
    endsNotIn sep (plainCriterionFrag k v) = true := by
  rcases hnull : isNullV v with _ | _
  · rw [show plainCriterionFrag k v
        = prepareAttribute k ++ "=" ++ prepareValue v by simp [plainCriterionFrag, hnull]]
    exact endsNotIn_append (endsNotIn_escapeVal hsep h)
  · rw [show plainCriterionFrag k v
        = prepareAttribute k ++ " IS NULL" by simp [plainCriterionFrag, hnull]]
    exact endsNotIn_append (endsNotIn_of_getLast (c := 'L') hsep (by decide) (by decide))

theorem predicate_plain {k : String} {v : Value} (h : isScalar v = true)
    (hk : toLowerJS k ∉ (["or", "and", "like", "not"] : List String)) :
    predicate v k none = .ok (plainCriterionFrag k v) := by
  have h1 : ¬(toLowerJS k = "or") := fun hx => hk (by simp [hx])
  have h2 : ¬(toLowerJS k = "and") := fun hx => hk (by simp [hx])
  have h3 : ¬(toLowerJS k = "like") := fun hx => hk (by simp [hx])
  have h4 : ¬(toLowerJS k = "not") := fun hx => hk (by simp [hx])
  rw [show predicate v k none = prepareCriterion v k none by
    simp [predicate, h1, h2, h3, h4, isArrayV_scalar h]]
  exact prepareCriterion_plain k h

theorem predPairs_plain {pairs : List (String × Value)}
    (h : ∀ p ∈ pairs, isScalar p.2 = true ∧
      toLowerJS p.1 ∉ (["or", "and", "like", "not"] : List String)) :
    predPairs pairs none = .ok (pairs.map (fun p => plainCriterionFrag p.1 p.2)) := by
  induction pairs with
  | nil => simp [predPairs]
  | cons p t ih =>
    obtain ⟨hs, hk⟩ := h p (by simp)
    rw [show predPairs (p :: t) none = (do
      let f ← predicate p.2 p.1 none
      let fs ← predPairs t none
      Except.ok (f :: fs)) by rw [predPairs]]
    rw [predicate_plain hs hk, ih (fun q hq => h q (by simp [hq]))]
    rfl

theorem prepareCriterion_comparator {key : String} (hkey : key ∈ comparatorKeys)
    (pk : String) {v : Value} (hv : validSubAttrCriteria v = false) :
    prepareCriterion v key (some pk) = .ok (comparatorFrag pk key v) := by
  fin_cases hkey <;> simp [prepareCriterion, comparatorFrag, hv]

theorem endsNotIn_comparatorFrag {sep : String} {key : String}
    (hkey : key ∈ comparatorKeys) (pk : String) {v : Value}
    (hsep : sepSafe sep = true) (h : isScalar v = true) :
    endsNotIn sep (comparatorFrag pk key v) = true := by
  have hval := endsNotIn_escapeVal (v := v) hsep h
  have hpct : endsNotIn sep "%" = true :=
    endsNotIn_of_getLast (c := '%') hsep (by decide) (by decide)
  fin_cases hkey
  case _ => -- "<"
    rw [show comparatorFrag pk "<" v
      = prepareAttribute pk ++ "<" ++ prepareValue v by simp [comparatorFrag]]
    exact endsNotIn_append hval
  case _ => -- "lessThan"
    rw [show comparatorFrag pk "lessThan" v
      = prepareAttribute pk ++ "<" ++ prepareValue v by simp [comparatorFrag]]
    exact endsNotIn_append hval
  case _ => -- "<="
    rw [show comparatorFrag pk "<=" v
      = prepareAttribute pk ++ "<=" ++ prepareValue v by simp [comparatorFrag]]
    exact endsNotIn_append hval
  case _ => -- "lessThanOrEqual"
    rw [show comparatorFrag pk "lessThanOrEqual" v
      = prepareAttribute pk ++ "<=" ++ prepareValue v by simp [comparatorFrag]]
    exact endsNotIn_append hval
  case _ => -- ">"
    rw [show comparatorFrag pk ">" v
      = prepareAttribute pk ++ ">" ++ prepareValue v by simp [comparatorFrag]]
    exact endsNotIn_append hval
  case _ => -- "greaterThan"
    rw [show comparatorFrag pk "greaterThan" v
      = prepareAttribute pk ++ ">" ++ prepareValue v by simp [comparatorFrag]]
    exact endsNotIn_append hval
  case _ => -- ">="
    rw [show comparatorFrag pk ">=" v
      = prepareAttribute pk ++ ">=" ++ prepareValue v by simp [comparatorFrag]]
    exact endsNotIn_append hval
  case _ => -- "greaterThanOrEqual"
    rw [show comparatorFrag pk "greaterThanOrEqual" v
      = prepareAttribute pk ++ ">=" ++ prepareValue v by simp [comparatorFrag]]
    exact endsNotIn_append hval
  case _ => -- "!"
    rcases hnull : isNullV v with _ | _
    · rw [show comparatorFrag pk "!" v
        = prepareAttribute pk ++ "<>" ++ prepareValue v by simp [comparatorFrag, hnull]]
      exact endsNotIn_append hval
    · rw [show comparatorFrag pk "!" v
        = prepareAttribute pk ++ "IS NOT NULL" by simp [comparatorFrag, hnull]]
      exact endsNotIn_append (endsNotIn_of_getLast (c := 'L') hsep (by decide) (by decide))
  case _ => -- "not"
    rcases hnull : isNullV v with _ | _
    · rw [show comparatorFrag pk "not" v
        = prepareAttribute pk ++ "<>" ++ prepareValue v by simp [comparatorFrag, hnull]]
      exact endsNotIn_append hval
    · rw [show comparatorFrag pk "not" v
        = prepareAttribute pk ++ "IS NOT NULL" by simp [comparatorFrag, hnull]]
      exact endsNotIn_append (endsNotIn_of_getLast (c := 'L') hsep (by decide) (by decide))
  case _ => -- "contains"
    rw [show comparatorFrag pk "contains" v
      = prepareAttribute pk ++ " LIKE %" ++ prepareValue v ++ "%" by simp [comparatorFrag]]
    exact endsNotIn_append hpct
  case _ => -- "startsWith"
    rw [show comparatorFrag pk "startsWith" v
      = prepareAttribute pk ++ " LIKE " ++ prepareValue v ++ "%" by simp [comparatorFrag]]
    exact endsNotIn_append hpct
  case _ => -- "endsWith"
    rw [show comparatorFrag pk "endsWith" v
      = prepareAttribute pk ++ " LIKE %" ++ prepareValue v by simp [comparatorFrag]]
    exact endsNotIn_append hval

theorem sepSafe_AND : sepSafe " AND " = true := by decide

theorem sepSafe_OR : sepSafe " OR " = true := by decide

theorem sepSafe_comma : sepSafe ", " = true := by decide

theorem whereV_obj (fields : List (String × Value)) (parentKey : Option String) :
    whereV (.vObj fields) parentKey = (do
      let frags ← predPairs fields parentKey
      Except.ok (buildJoin frags " AND ")) := by
  rw [whereV]

theorem whereV_plain {pairs : List (String × Value)}
    (h : ∀ p ∈ pairs, isScalar p.2 = true ∧
      toLowerJS p.1 ∉ (["or", "and", "like", "not"] : List String)) :
    whereV (.vObj pairs) none =
      .ok (joinWith " AND " (pairs.map (fun p => plainCriterionFrag p.1 p.2))) := by
  rw [whereV_obj, predPairs_plain h]
  show Except.ok (buildJoin _ " AND ") = _
  rw [buildJoin_eq_joinWith " AND " _ (by
    intro f hf
    rcases List.mem_map.mp hf with ⟨p, hp, rfl⟩
    exact endsNotIn_plainCriterionFrag p.1 sepSafe_AND (h p hp).1)]

theorem predPairs_comparator (pk : String) {pairs : List (String × Value)}
    (h : ∀ p ∈ pairs, p.1 ∈ comparatorKeys ∧ isScalar p.2 = true) :
    predPairs pairs (some pk) =
      .ok (pairs.map (fun p => comparatorFrag pk p.1 p.2)) := by
  induction pairs with
  | nil => simp [predPairs]
  | cons p t ih =>
    obtain ⟨hk, hs⟩ := h p (by simp)
    rw [show predPairs (p :: t) (some pk) = (do
      let f ← predicate p.2 p.1 (some pk)
      let fs ← predPairs t (some pk)
      Except.ok (f :: fs)) by rw [predPairs]]
    rw [show predicate p.2 p.1 (some pk) = prepareCriterion p.2 p.1 (some pk) by
      simp [predicate]]
    rw [prepareCriterion_comparator hk pk (validSubAttrCriteria_scalar hs)]
    rw [ih (fun q hq => h q (by simp [hq]))]
    rfl

theorem validSubAttr_cons {k : String} {v : Value} (rest : List (String × Value))
    (hk : k ∈ comparatorKeys) (hv : truthy v = true) :
    validSubAttrCriteria (.vObj ((k, v) :: rest)) = true := by
  have hprop : propTruthy (.vObj ((k, v) :: rest)) k = true := by
    simp [propTruthy, getProp, List.find?, hv]
  fin_cases hk <;> simp_all [validSubAttrCriteria, isObjectJS]

theorem prepareCriterion_subAttr (attr : String) {pairs : List (String × Value)}
    (hne : pairs ≠ [])
    (h : ∀ p ∈ pairs, p.1 ∈ comparatorKeys ∧ truthy p.2 = true ∧ isScalar p.2 = true) :
    prepareCriterion (.vObj pairs) attr none =
      .ok (joinWith " AND " (pairs.map (fun p => comparatorFrag attr p.1 p.2))) := by
  cases pairs with
  | nil => exact absurd rfl hne
  | cons p t =>
    obtain ⟨hk, hv, _⟩ := h p (by simp)
    have hdet : validSubAttrCriteria (.vObj (p :: t)) = true := by
      rcases p with ⟨k, v⟩
      exact validSubAttr_cons t hk hv
    rw [show prepareCriterion (.vObj (p :: t)) attr none
        = whereV (.vObj (p :: t)) (some attr) by simp [prepareCriterion, hdet]]
    rw [whereV_obj, predPairs_comparator attr (fun q hq => ⟨(h q hq).1, (h q hq).2.2⟩)]
    show Except.ok (buildJoin _ " AND ") = _
    rw [buildJoin_eq_joinWith " AND " _ (by
      intro f hf
      rcases List.mem_map.mp hf with ⟨q, hq, rfl⟩
      exact endsNotIn_comparatorFrag (h q hq).1 attr sepSafe_AND (h q hq).2.2)]

/-- `whereArr` succeeds exactly when every element translates, giving the
pointwise `where` translations. -/
theorem whereArr_map {es : List Value} {frags : List String}
    (h : List.Forall₂ (fun e f => whereV e none = .ok f) es frags) :
    whereArr es = .ok frags := by
  induction h with
  | nil => rw [whereArr]
  | cons hef _ ih =>
    rw [show whereArr (_ :: _) = (do
      let f ← whereV _ none
      let fs ← whereArr _
      Except.ok (f :: fs)) by rw [whereArr]]
    rw [hef, ih]
    rfl

/-! ## Clause descriptions for the options serializer -/

/-- The `ORDER BY` block of `serializeOptions`: present exactly when
`options.sort` is set (an object, hence truthy); each attribute is
escaped and followed by `ASC` exactly when its direction is the number
1, `DESC` otherwise. -/
def sortClause (sortO : Option (List (String × Int))) : String :=
  match sortO with
  | some l =>
    "ORDER BY " ++
      String.join (l.map (fun p =>
        prepareAttribute p.1 ++ " " ++ (if p.2 = 1 then "ASC " else "DESC ")))
  | none => ""

/-- The `LIMIT` block: `LIMIT n` when `options.limit` is truthy, else the
sentinel maximum value. -/
def limitClause (limO : Option Nat) : String :=
  if natOptTruthy limO then "LIMIT " ++ toString (limO.getD 0) ++ " "
  else "LIMIT 18446744073709551610 "

/-- The `OFFSET` block: `OFFSET n` when `options.skip` is truthy, nothing
otherwise. -/
def offsetClause (skipO : Option Nat) : String :=
  if natOptTruthy skipO then "OFFSET " ++ toString (skipO.getD 0) ++ " "
  else ""

theorem serializeOptions_noWhere (sortO : Option (List (String × Int)))
    (limO skipO : Option Nat) :
    serializeOptions ⟨none, sortO, limO, skipO⟩ =
      .ok (sortClause sortO ++ limitClause limO ++ offsetClause skipO) := by
  simp only [serializeOptions, sortClause, limitClause, offsetClause]
  rfl

theorem serializeOptions_withWhere {w : Value} {s : String}
    (sortO : Option (List (String × Int))) (limO skipO : Option Nat)
    (hw : truthy w = true) (hs : whereV w none = .ok s) :
    serializeOptions ⟨some w, sortO, limO, skipO⟩ =
      .ok ("WHERE " ++ s ++ " " ++
        sortClause sortO ++ limitClause limO ++ offsetClause skipO) := by
  simp only [serializeOptions, hw, if_true, hs]
  rfl

theorem criterionFrags_plain {pairs : List (String × Value)}
    (h : ∀ p ∈ pairs, isScalar p.2 = true) :
    criterionFrags pairs = .ok (pairs.map (fun p => plainCriterionFrag p.1 p.2)) := by
  induction pairs with
  | nil => rfl
  | cons p t ih =>
    rw [show criterionFrags (p :: t) = (do
      let f ← prepareCriterion p.2 p.1 none
      let fs ← criterionFrags t
      Except.ok (f :: fs)) by rw [criterionFrags]]
    rw [prepareCriterion_plain p.1 (h p (by simp)), ih (fun q hq => h q (by simp [hq]))]
    rfl

theorem criteria_plain {pairs : List (String × Value)}
    (h : ∀ p ∈ pairs, isScalar p.2 = true) :
    criteria pairs = .ok (joinWith ", " (pairs.map (fun p => plainCriterionFrag p.1 p.2))) := by
  simp only [criteria]
  rw [criterionFrags_plain h]
  show Except.ok (buildJoin _ ", ") = _
  rw [buildJoin_eq_joinWith ", " _ (by
    intro f hf
    rcases List.mem_map.mp hf with ⟨p, hp, rfl⟩
    exact endsNotIn_plainCriterionFrag p.1 sepSafe_comma (h p hp))]

/-! ## Claims -/

/-- C1: the claim says that an object with a recognized comparator key is
detected as a comparator object even when the operand is falsy (`0`,
`null`, `""`, `false`), so that the comparator is rendered.  The code
violates this: `validSubAttrCriteria` truthiness-tests each operand, so
every falsy operand defeats detection and the object is rendered as a
plain equality value (here `{age: {'<': 0}}` becomes ``​`age`=`<` = 0``
via the driver's object-to-values escape), while the same comparator
with a truthy operand is detected. -/
theorem C1_falsy_comparator_detection :
    validSubAttrCriteria (Value.vObj [("<", Value.vInt 0)]) = false ∧
    validSubAttrCriteria (Value.vObj [("!", Value.vNull)]) = false ∧
    validSubAttrCriteria (Value.vObj [("contains", Value.vStr "")]) = false ∧
    validSubAttrCriteria (Value.vObj [(">", Value.vBool false)]) = false ∧
    validSubAttrCriteria (Value.vObj [("<", Value.vInt 1)]) = true ∧
    whereV (Value.vObj [("age", Value.vObj [("<", Value.vInt 0)])]) none =
      .ok "`age`=`<` = 0" := by
  refine ⟨by decide, by decide, by decide, by decide, by decide, ?_⟩
  simp only [whereV, predPairs, predIdx, predicate, prepareCriterion, whereFrags,
    wherePairs, whereArr, prepareValue, prepareAttribute, escapeVal, arrayElem,
    arrayToList, objectToValues, valuesList, likeBuild, likeCriterion, jsEntries,
    jsEntriesArr, List.map_cons, List.map_nil]
  decide

/-- C2: `Translate({name: null})` does render ``​`name` IS NULL``, and the
comparator dispatch itself renders an `IS NOT NULL` test for a null
operand under `!`; but the claimed top-level translation of
`{name: {'!': null}}` never reaches that dispatch, because the
truthiness-based detection treats the null operand as absent and renders
an equality against the escaped object instead. -/
theorem C2_null_tests :
    whereV (Value.vObj [("name", Value.vNull)]) none = .ok "`name` IS NULL" ∧
    prepareCriterion Value.vNull "!" (some "name") = .ok "`name`IS NOT NULL" ∧
    whereV (Value.vObj [("name", Value.vObj [("!", Value.vNull)])]) none =
      .ok "`name`=`!` = NULL" := by
  refine ⟨?_, ?_, ?_⟩ <;>
  · simp only [whereV, predPairs, predIdx, predicate, prepareCriterion, whereFrags,
      wherePairs, whereArr, prepareValue, prepareAttribute, escapeVal, arrayElem,
      arrayToList, objectToValues, valuesList, likeBuild, likeCriterion, jsEntries,
      jsEntriesArr, List.map_cons, List.map_nil]
    decide

/-- C3: the claim says `contains`/`startsWith`/`endsWith` render a single
well-formed quoted literal with the `%` wildcards inside it.  The code
instead concatenates the wildcards *outside* the quoted literal
(`attrStr + ' LIKE %' + valueStr + '%'`), producing
``​`name` LIKE %'foo'%`` — the `%` signs sit outside the string literal
and the fragment is not the claimed `'%foo%'` form. -/
theorem C3_like_wildcard_placement :
    whereV (Value.vObj [("name", Value.vObj [("contains", Value.vStr "foo")])]) none =
      .ok "`name` LIKE %'foo'%" ∧
    whereV (Value.vObj [("name", Value.vObj [("startsWith", Value.vStr "foo")])]) none =
      .ok "`name` LIKE 'foo'%" ∧
    whereV (Value.vObj [("name", Value.vObj [("endsWith", Value.vStr "foo")])]) none =
      .ok "`name` LIKE %'foo'" ∧
    ("`name` LIKE %'foo'%" : String) ≠ "`name` LIKE '%foo%'" := by
  refine ⟨?_, ?_, ?_, by decide⟩ <;>
  · simp only [whereV, predPairs, predIdx, predicate, prepareCriterion, whereFrags,
      wherePairs, whereArr, prepareValue, prepareAttribute, escapeVal, arrayElem,
      arrayToList, objectToValues, valuesList, likeBuild, likeCriterion, jsEntries,
      jsEntriesArr, List.map_cons, List.map_nil]
    decide

/-- C4 (counterexample): a `not` key whose value is an array is dispatched
to the `IN` branch, which precedes the `not` check, so the Predicate
Translator renders an `IN` fragment instead of failing — refuting the
claim that every `not` key (with no parent key) fails with an explicit
error. -/
theorem C4_counterexample :
    predicate (Value.vArr [Value.vInt 1, Value.vInt 2]) "not" none =
      .ok "`not` IN (1, 2)" := by
  simp only [predicate, prepareCriterion, prepareValue, prepareAttribute, escapeVal,
    arrayElem, arrayToList, objectToValues, valuesList, likeBuild, likeCriterion,
    jsEntries, jsEntriesArr, List.map_cons, List.map_nil]
  decide

/-- C4 (amended): a key dispatched under an active parent key that is not
a recognized comparator key (and whose value is not itself a valid
sub-attribute criteria object) fails with the explicit
`Unknown comparator` error; and a `not` key (case-insensitively, with no
parent key) whose value is *not an array* fails with the explicit
`NOT not supported yet!` error.  (An array value hits the earlier `IN`
branch, see the counterexample.)  In neither covered case is the key
silently dropped. -/
theorem C4_unknown_comparator_errors :
    (∀ (v : Value) (key pk : String),
      validSubAttrCriteria v = false → key ∉ comparatorKeys →
      prepareCriterion v key (some pk) = .error ("Unknown comparator: " ++ key)) ∧
    (∀ (v : Value) (key : String),
      toLowerJS key = "not" → isArrayV v = false →
      predicate v key none = .error "NOT not supported yet!") := by
  constructor
  · intro v key pk hv hkey
    simp only [comparatorKeys, List.mem_cons, List.not_mem_nil, or_false, not_or] at hkey
    obtain ⟨h1, h2, h3, h4, h5, h6, h7, h8, h9, h10, h11, h12, h13⟩ := hkey
    simp [prepareCriterion, hv, h1, h2, h3, h4, h5, h6, h7, h8, h9, h10, h11, h12, h13]
  · intro v key hkey harr
    have h1 : ¬(toLowerJS key = "or") := by rw [hkey]; decide
    have h2 : ¬(toLowerJS key = "and") := by rw [hkey]; decide
    have h3 : ¬(toLowerJS key = "like") := by rw [hkey]; decide
    simp [predicate, h1, h2, h3, harr, hkey]

/-- C4 witness: `bogus` under parent key `age` raises the explicit
`Unknown comparator` error, and a scalar-valued `NOT` key raises the
explicit `NOT not supported yet!` error. -/
theorem C4_witness :
    validSubAttrCriteria (Value.vInt 5) = false ∧
    "bogus" ∉ comparatorKeys ∧
    prepareCriterion (Value.vInt 5) "bogus" (some "age") =
      .error ("Unknown comparator: " ++ "bogus") ∧
    toLowerJS "NOT" = "not" ∧
    isArrayV (Value.vInt 5) = false ∧
    predicate (Value.vInt 5) "NOT" none = .error "NOT not supported yet!" :=
  ⟨by decide, by decide,
    C4_unknown_comparator_errors.1 (Value.vInt 5) "bogus" "age" (by decide) (by decide),
    by decide, by decide,
    C4_unknown_comparator_errors.2 (Value.vInt 5) "NOT" (by decide) (by decide)⟩

/-- C5: with an `or` key (case-insensitively) over a sequence of nested
predicate nodes, each node is translated through the `where` wrapper,
the fragments are joined with `" OR "` and the whole disjunction is
wrapped in parentheses; `and` behaves identically with `" AND "`; e.g.
`Translate({or: [{a: 1}, {a: 2}]})` is the parenthesized disjunction of
the two equality fragments. -/
theorem C5_or_and_combinators :
    (∀ (key : String) (nodes : List Value) (frags : List String),
      toLowerJS key = "or" →
      List.Forall₂ (fun e f => whereV e none = .ok f) nodes frags →
      (∀ f ∈ frags, endsNotIn " OR " f = true) →
      predicate (Value.vArr nodes) key none =
        .ok (" ( " ++ joinWith " OR " frags ++ " ) ")) ∧
    (∀ (key : String) (nodes : List Value) (frags : List String),
      toLowerJS key = "and" →
      List.Forall₂ (fun e f => whereV e none = .ok f) nodes frags →
      (∀ f ∈ frags, endsNotIn " AND " f = true) →
      predicate (Value.vArr nodes) key none =
        .ok (" ( " ++ joinWith " AND " frags ++ " ) ")) ∧
    whereV (Value.vObj [("or", Value.vArr
        [Value.vObj [("a", Value.vInt 1)], Value.vObj [("a", Value.vInt 2)]])]) none =
      .ok (" ( " ++ ("`a`=1" ++ " OR " ++ "`a`=2") ++ " )") := by
  refine ⟨?_, ?_, ?_⟩
  · intro key nodes frags hkey hforall hends
    rw [show predicate (Value.vArr nodes) key none = (do
      let frags ← whereFrags (Value.vArr nodes)
      Except.ok (" ( " ++ buildJoin frags " OR " ++ " ) ")) by simp [predicate, hkey]]
    rw [show whereFrags (Value.vArr nodes) = whereArr nodes by rw [whereFrags]]
    rw [whereArr_map hforall]
    show Except.ok (" ( " ++ buildJoin frags " OR " ++ " ) ") = _
    rw [buildJoin_eq_joinWith " OR " frags hends]
  · intro key nodes frags hkey hforall hends
    have hor : ¬(toLowerJS key = "or") := by rw [hkey]; decide
    rw [show predicate (Value.vArr nodes) key none = (do
      let frags ← whereFrags (Value.vArr nodes)
      Except.ok (" ( " ++ buildJoin frags " AND " ++ " ) ")) by simp [predicate, hkey, hor]]
    rw [show whereFrags (Value.vArr nodes) = whereArr nodes by rw [whereFrags]]
    rw [whereArr_map hforall]
    show Except.ok (" ( " ++ buildJoin frags " AND " ++ " ) ") = _
    rw [buildJoin_eq_joinWith " AND " frags hends]
  · simp only [whereV, predPairs, predIdx, predicate, prepareCriterion, whereFrags,
      wherePairs, whereArr, prepareValue, prepareAttribute, escapeVal, arrayElem,
      arrayToList, objectToValues, valuesList, likeBuild, likeCriterion, jsEntries,
      jsEntriesArr, List.map_cons, List.map_nil]
    decide

/-- C5 witness: the `or` branch applied to one concrete nested node. -/
theorem C5_witness :
    toLowerJS "or" = "or" ∧
    List.Forall₂ (fun e f => whereV e none = .ok f)
      [Value.vObj [("a", Value.vInt 1)]] ["`a`=1"] ∧
    (∀ f ∈ (["`a`=1"] : List String), endsNotIn " OR " f = true) ∧
    predicate (Value.vArr [Value.vObj [("a", Value.vInt 1)]]) "or" none =
      .ok (" ( " ++ joinWith " OR " ["`a`=1"] ++ " ) ") := by
  have h1 : whereV (Value.vObj [("a", Value.vInt 1)]) none = .ok "`a`=1" := by
    simp only [whereV, predPairs, predIdx, predicate, prepareCriterion, whereFrags,
      wherePairs, whereArr, prepareValue, prepareAttribute, escapeVal, arrayElem,
      arrayToList, objectToValues, valuesList, likeBuild, likeCriterion, jsEntries,
      jsEntriesArr, List.map_cons, List.map_nil]
    decide
  have hforall : List.Forall₂ (fun e f => whereV e none = .ok f)
      [Value.vObj [("a", Value.vInt 1)]] ["`a`=1"] :=
    List.Forall₂.cons h1 List.Forall₂.nil
  have hends : ∀ f ∈ (["`a`=1"] : List String), endsNotIn " OR " f = true := by decide
  exact ⟨by decide, hforall, hends,
    C5_or_and_combinators.1 "or" _ _ (by decide) hforall hends⟩

/-- C6: a predicate node of plain attribute/value pairs (no combinator
keys, scalar values) renders each pair and joins the fragments with
`" AND "` in iteration order, the trailing separator being trimmed; e.g.
`Translate({a: 1, b: 2})` is the `a`-equality fragment, `" AND "`, then
the `b`-equality fragment. -/
theorem C6_implicit_and :
    (∀ (pairs : List (String × Value)),
      (∀ p ∈ pairs, isScalar p.2 = true ∧
        toLowerJS p.1 ∉ (["or", "and", "like", "not"] : List String)) →
      whereV (.vObj pairs) none =
        .ok (joinWith " AND " (pairs.map (fun p => plainCriterionFrag p.1 p.2)))) ∧
    whereV (Value.vObj [("a", Value.vInt 1), ("b", Value.vInt 2)]) none =
      .ok ("`a`=1" ++ " AND " ++ "`b`=2") := by
  refine ⟨fun pairs h => whereV_plain h, ?_⟩
  simp only [whereV, predPairs, predIdx, predicate, prepareCriterion, whereFrags,
    wherePairs, whereArr, prepareValue, prepareAttribute, escapeVal, arrayElem,
    arrayToList, objectToValues, valuesList, likeBuild, likeCriterion, jsEntries,
    jsEntriesArr, List.map_cons, List.map_nil]
  decide

/-- C6 witness: the general pair-joining statement applied to the
spec's example `{a: 1, b: 2}`. -/
theorem C6_witness :
    (∀ p ∈ ([("a", Value.vInt 1), ("b", Value.vInt 2)] : List (String × Value)),
      isScalar p.2 = true ∧
      toLowerJS p.1 ∉ (["or", "and", "like", "not"] : List String)) ∧
    whereV (Value.vObj [("a", Value.vInt 1), ("b", Value.vInt 2)]) none =
      .ok (joinWith " AND "
        ([("a", Value.vInt 1), ("b", Value.vInt 2)].map
          (fun p => plainCriterionFrag p.1 p.2))) := by
  have h : ∀ p ∈ ([("a", Value.vInt 1), ("b", Value.vInt 2)] : List (String × Value)),
      isScalar p.2 = true ∧
      toLowerJS p.1 ∉ (["or", "and", "like", "not"] : List String) := by decide
  exact ⟨h, C6_implicit_and.1 _ h⟩

/-- C7: `serializeOptions` emits its clauses in the fixed order WHERE,
ORDER BY, LIMIT, OFFSET; a sort attribute is followed by `ASC` exactly
when its direction is the number 1 and by `DESC` otherwise; a truthy
(present and positive) `limit` emits `LIMIT n` while anything else emits
the sentinel `LIMIT 18446744073709551610`, keeping a subsequent OFFSET
usable. -/
theorem C7_serialize_layout :
    (∀ (w : Value) (s : String) (sortO : Option (List (String × Int)))
        (limO skipO : Option Nat),
      truthy w = true → whereV w none = .ok s →
      serializeOptions ⟨some w, sortO, limO, skipO⟩ =
        .ok ("WHERE " ++ s ++ " " ++
          sortClause sortO ++ limitClause limO ++ offsetClause skipO)) ∧
    (∀ (sortO : Option (List (String × Int))) (limO skipO : Option Nat),
      serializeOptions ⟨none, sortO, limO, skipO⟩ =
        .ok (sortClause sortO ++ limitClause limO ++ offsetClause skipO)) ∧
    (∀ (a : String) (d : Int) (limO skipO : Option Nat),
      serializeOptions ⟨none, some [(a, d)], limO, skipO⟩ =
        .ok ("ORDER BY " ++ (prepareAttribute a ++ " " ++
          (if d = 1 then "ASC " else "DESC ")) ++
          limitClause limO ++ offsetClause skipO)) ∧
    (∀ (l : List (String × Int)) (limO skipO : Option Nat),
      serializeOptions ⟨none, some l, limO, skipO⟩ =
        .ok (("ORDER BY " ++ String.join (l.map (fun p =>
            prepareAttribute p.1 ++ " " ++ (if p.2 = 1 then "ASC " else "DESC ")))) ++
          limitClause limO ++ offsetClause skipO)) ∧
    (∀ (n : Nat), n ≠ 0 → limitClause (some n) = "LIMIT " ++ toString n ++ " ") ∧
    (limitClause none = "LIMIT 18446744073709551610 " ∧
      limitClause (some 0) = "LIMIT 18446744073709551610 ") ∧
    serializeOptions ⟨none, some [("name", 1)], some 10, some 5⟩ =
      .ok "ORDER BY `name` ASC LIMIT 10 OFFSET 5 " := by
  refine ⟨?_, ?_, ?_, ?_, ?_, ⟨by decide, by decide⟩, ?_⟩
  · intro w s sortO limO skipO hw hs
    exact serializeOptions_withWhere sortO limO skipO hw hs
  · intro sortO limO skipO
    exact serializeOptions_noWhere sortO limO skipO
  · intro a d limO skipO
    rw [serializeOptions_noWhere]
    rw [show sortClause (some [(a, d)])
      = "ORDER BY " ++ (prepareAttribute a ++ " " ++
        (if d = 1 then "ASC " else "DESC ")) by
        simp [sortClause, String.join, String.append_assoc]]
  · intro l limO skipO
    rw [serializeOptions_noWhere]
    rfl
  · intro n hn
    simp [limitClause, natOptTruthy, hn]
  · simp only [serializeOptions, prepareValue, prepareAttribute, escapeVal]
    decide

/-- C7 witness: the with-WHERE clause-order statement applied to a
one-pair `where`, a one-attribute descending sort, a zero limit and a
nonzero skip. -/
theorem C7_witness :
    truthy (Value.vObj [("a", Value.vInt 1)]) = true ∧
    whereV (Value.vObj [("a", Value.vInt 1)]) none = .ok "`a`=1" ∧
    serializeOptions ⟨some (Value.vObj [("a", Value.vInt 1)]),
        some [("b", -1)], some 0, some 7⟩ =
      .ok ("WHERE " ++ "`a`=1" ++ " " ++
        sortClause (some [("b", -1)]) ++ limitClause (some 0) ++
        offsetClause (some 7)) ∧
    (3 : Nat) ≠ 0 ∧ limitClause (some 3) = "LIMIT " ++ toString (3 : Nat) ++ " " := by
  have hs : whereV (Value.vObj [("a", Value.vInt 1)]) none = .ok "`a`=1" := by
    simp only [whereV, predPairs, predIdx, predicate, prepareCriterion, whereFrags,
      wherePairs, whereArr, prepareValue, prepareAttribute, escapeVal, arrayElem,
      arrayToList, objectToValues, valuesList, likeBuild, likeCriterion, jsEntries,
      jsEntriesArr, List.map_cons, List.map_nil]
    decide
  exact ⟨by decide, hs,
    C7_serialize_layout.1 _ _ (some [("b", -1)]) (some 0) (some 7) (by decide) hs,
    by decide, C7_serialize_layout.2.2.2.2.1 3 (by decide)⟩

/-- C8 counterexample: a present-but-empty `where` mapping is truthy in
JavaScript, so the code *does* emit a WHERE clause (`"WHERE  "` with an
empty predicate), contradicting the claim that an empty mapping yields
no WHERE clause; and a present `skip` equal to 0 is falsy, so no OFFSET
clause is emitted — the output coincides with the skip-absent output —
contradicting the claim that skip 0 still emits `OFFSET 0`. -/
theorem C8_counterexample :
    serializeOptions ⟨some (Value.vObj []), none, none, none⟩ =
      .ok "WHERE  LIMIT 18446744073709551610 " ∧
    serializeOptions ⟨none, none, none, some 0⟩ =
      .ok "LIMIT 18446744073709551610 " ∧
    serializeOptions ⟨none, none, none, some 0⟩ =
      serializeOptions ⟨none, none, none, none⟩ := by
  refine ⟨?_, by simp only [serializeOptions]; decide, by simp only [serializeOptions]; decide⟩
  simp only [serializeOptions, whereV, predPairs, predIdx, predicate, prepareCriterion,
    whereFrags, wherePairs, whereArr, prepareValue, prepareAttribute, escapeVal,
    arrayElem, arrayToList, objectToValues]
  decide

/-- C8 (amended): `serializeOptions` emits a WHERE clause exactly when
the `where` field is present and truthy — an empty mapping is truthy and
still emits `"WHERE "` followed by the empty predicate and a space — and
emits `OFFSET n` when `skip` is present and nonzero, while a skip of 0
behaves as if `skip` were absent. -/
theorem C8_where_offset_emission :
    (∀ (w : Value) (s : String) (sortO : Option (List (String × Int)))
        (limO skipO : Option Nat),
      truthy w = true → whereV w none = .ok s →
      serializeOptions ⟨some w, sortO, limO, skipO⟩ =
        .ok ("WHERE " ++ s ++ " " ++
          sortClause sortO ++ limitClause limO ++ offsetClause skipO)) ∧
    (∀ (sortO : Option (List (String × Int))) (limO skipO : Option Nat),
      serializeOptions ⟨some (Value.vObj []), sortO, limO, skipO⟩ =
        .ok ("WHERE " ++ "" ++ " " ++
          sortClause sortO ++ limitClause limO ++ offsetClause skipO)) ∧
    (∀ (sortO : Option (List (String × Int))) (limO : Option Nat) (n : Nat),
      n ≠ 0 →
      serializeOptions ⟨none, sortO, limO, some n⟩ =
        .ok (sortClause sortO ++ limitClause limO ++
          ("OFFSET " ++ toString n ++ " "))) ∧
    (∀ (wO : Option Value) (sortO : Option (List (String × Int))) (limO : Option Nat),
      serializeOptions ⟨wO, sortO, limO, some 0⟩ =
        serializeOptions ⟨wO, sortO, limO, none⟩) := by
  refine ⟨?_, ?_, ?_, ?_⟩
  · intro w s sortO limO skipO hw hs
    exact serializeOptions_withWhere sortO limO skipO hw hs
  · intro sortO limO skipO
    exact serializeOptions_withWhere sortO limO skipO (by decide)
      (by simp only [whereV, predPairs]; rfl)
  · intro sortO limO n hn
    rw [serializeOptions_noWhere]
    rw [show offsetClause (some n) = "OFFSET " ++ toString n ++ " " by
      simp [offsetClause, natOptTruthy, hn]]
  · intro wO sortO limO
    simp [serializeOptions, natOptTruthy]

/-- C8 witness: the amended statement applied to concrete options. -/
theorem C8_witness :
    truthy (Value.vObj [("a", Value.vInt 1)]) = true ∧
    whereV (Value.vObj [("a", Value.vInt 1)]) none = .ok "`a`=1" ∧
    serializeOptions ⟨some (Value.vObj [("a", Value.vInt 1)]), none, none, none⟩ =
      .ok ("WHERE " ++ "`a`=1" ++ " " ++
        sortClause none ++ limitClause none ++ offsetClause none) ∧
    (5 : Nat) ≠ 0 ∧
    serializeOptions ⟨none, none, none, some 5⟩ =
      .ok (sortClause none ++ limitClause none ++ ("OFFSET " ++ toString (5 : Nat) ++ " ")) := by
  have hs : whereV (Value.vObj [("a", Value.vInt 1)]) none = .ok "`a`=1" := by
    simp only [whereV, predPairs, predIdx, predicate, prepareCriterion, whereFrags,
      wherePairs, whereArr, prepareValue, prepareAttribute, escapeVal, arrayElem,
      arrayToList, objectToValues, valuesList, likeBuild, likeCriterion, jsEntries,
      jsEntriesArr, List.map_cons, List.map_nil]
    decide
  exact ⟨by decide, hs,
    C8_where_offset_emission.1 _ _ none none none (by decide) hs,
    by decide,
    C8_where_offset_emission.2.2.1 none none 5 (by decide)⟩

/-- C9: an attribute whose value is an object of two or more recognized
comparator keys with truthy (scalar) operands raises no error: every
comparator is rendered and the per-comparator fragments are joined with
`" AND "` in the object's key order — conjunctive, not
first-matching-key-wins; e.g. `{age: {'>': 18, '<': 65}}` renders
``​`age`>18 AND `age`<65``. -/
theorem C9_multi_comparator_conjunction :
    (∀ (attr : String) (pairs : List (String × Value)),
      pairs ≠ [] →
      (∀ p ∈ pairs, p.1 ∈ comparatorKeys ∧ truthy p.2 = true ∧ isScalar p.2 = true) →
      prepareCriterion (.vObj pairs) attr none =
        .ok (joinWith " AND " (pairs.map (fun p => comparatorFrag attr p.1 p.2)))) ∧
    whereV (Value.vObj [("age", Value.vObj [(">", Value.vInt 18), ("<", Value.vInt 65)])]) none =
      .ok ("`age`>18" ++ " AND " ++ "`age`<65") := by
  refine ⟨fun attr pairs hne h => prepareCriterion_subAttr attr hne h, ?_⟩
  simp only [whereV, predPairs, predIdx, predicate, prepareCriterion, whereFrags,
    wherePairs, whereArr, prepareValue, prepareAttribute, escapeVal, arrayElem,
    arrayToList, objectToValues, valuesList, likeBuild, likeCriterion, jsEntries,
    jsEntriesArr, List.map_cons, List.map_nil]
  decide

/-- C9 witness: the general statement applied to
`{age: {'>': 18, '<': 65}}`. -/
theorem C9_witness :
    (([((">" : String), Value.vInt 18), ("<", Value.vInt 65)] :
        List (String × Value)) ≠ []) ∧
    (∀ p ∈ ([((">" : String), Value.vInt 18), ("<", Value.vInt 65)] :
        List (String × Value)),
      p.1 ∈ comparatorKeys ∧ truthy p.2 = true ∧ isScalar p.2 = true) ∧
    prepareCriterion (Value.vObj [(">", Value.vInt 18), ("<", Value.vInt 65)]) "age" none =
      .ok (joinWith " AND "
        ([((">" : String), Value.vInt 18), ("<", Value.vInt 65)].map
          (fun p => comparatorFrag "age" p.1 p.2))) := by
  have h : ∀ p ∈ ([((">" : String), Value.vInt 18), ("<", Value.vInt 65)] :
      List (String × Value)),
      p.1 ∈ comparatorKeys ∧ truthy p.2 = true ∧ isScalar p.2 = true := by decide
  exact ⟨by simp, h, C9_multi_comparator_conjunction.1 "age" _ (by simp) h⟩

/-- C10: the UPDATE assignment builder `sql.criteria` (consumed by
`adapter.update`'s SET clause) renders every pair with a non-null scalar
value as escaped-attribute `=` escaped-value, joins the pairs with
`", "`, and renders a null-valued pair as the NULL-test
``attr IS NULL`` — prepareCriterion's equality/NULL rendering reused
unchanged. -/
theorem C10_update_assignments :
    (∀ (pairs : List (String × Value)),
      (∀ p ∈ pairs, isScalar p.2 = true) →
      criteria pairs =
        .ok (joinWith ", " (pairs.map (fun p => plainCriterionFrag p.1 p.2)))) ∧
    (∀ (k : String), plainCriterionFrag k Value.vNull =
      prepareAttribute k ++ " IS NULL") ∧
    (∀ (k : String) (v : Value), isNullV v = false →
      plainCriterionFrag k v = prepareAttribute k ++ "=" ++ prepareValue v) ∧
    criteria [("a", Value.vInt 5), ("b", Value.vNull)] =
      .ok ("`a`=5" ++ ", " ++ "`b` IS NULL") := by
  refine ⟨fun pairs h => criteria_plain h, ?_, ?_, ?_⟩
  · intro k; simp [plainCriterionFrag, isNullV]
  · intro k v hv; simp [plainCriterionFrag, hv]
  · simp only [criteria, criterionFrags, whereV, predPairs, predIdx, predicate,
      prepareCriterion, whereFrags, wherePairs, whereArr, prepareValue,
      prepareAttribute, escapeVal, arrayElem, arrayToList, objectToValues,
      valuesList, likeBuild, likeCriterion, jsEntries, jsEntriesArr,
      List.map_cons, List.map_nil]
    decide

/-- C10 witness: the general statement applied to
`{a: 5, b: null}`. -/
theorem C10_witness :
    (∀ p ∈ ([("a", Value.vInt 5), ("b", Value.vNull)] : List (String × Value)),
      isScalar p.2 = true) ∧
    criteria [("a", Value.vInt 5), ("b", Value.vNull)] =
      .ok (joinWith ", "
        ([("a", Value.vInt 5), ("b", Value.vNull)].map
          (fun p => plainCriterionFrag p.1 p.2))) := by
  have h : ∀ p ∈ ([("a", Value.vInt 5), ("b", Value.vNull)] : List (String × Value)),
      isScalar p.2 = true := by decide
  exact ⟨h, C10_update_assignments.1 _ h⟩

end WMySQL
